import Mathlib

/-!
Verification development for the Kairovix lab equipment scheduler
(src/app.py). The booking engine is embedded shallowly:

* instants are minute counts: the date picker always yields a valid
  calendar date, abstracted to a day index, and a datetime is
  day * 1440 + minuteOfDay, which preserves Python datetime ordering;
* the 12 hour time text given to _parse_datetime_12h is parsed by
  parse12core below, following the regular expressions Python strptime
  compiles for the format "%I:%M %p": hour 1[0-2]|0[1-9]|[1-9], a literal
  colon, minute [0-5]\d|\d, one or more whitespace characters, a case
  insensitive AM/PM marker, and the whole text must be consumed; the text
  is stripped first, as in the source;
* the stored Firestore string fields start_date, start_time, end_date and
  end_time are abstracted to their parse results (Option Nat): a field
  written by the app is the strftime rendering of a valid datetime and
  reparses to the same day index or minute of day, so it is modelled as
  some value; a missing or malformed field, on which strptime raises or
  _parse_datetime_12h returns None, is modelled as none;
* the bookings collection is a list of (document id, record) pairs; each
  Firestore call (query stream, set, delete) is one atomic operation and
  document ids are drawn from a fresh counter, standing in for uuid4.
-/

def ADMIN_EMAIL : String := "ogunbowaleadeola@gmail.com"

/-- IncuCyte tray slots, as the nested grid of the source. -/
def INCUCYTE_SLOTS : List (List String) :=
  [["Top Left", "Top Right"], ["Middle Left", "Middle Right"], ["Bottom Left", "Bottom Right"]]

def INCUCYTE_SLOTS_FLAT : List String := INCUCYTE_SLOTS.flatten

def FUME_HOOD_SLOTS : List String := ["Fume Hood 1", "Fume Hood 2"]

/-- Equipment using slot logic. -/
def SLOT_EQUIPMENT : List String := ["IncuCyte", "Fume Hood"]

/-- Python str.strip on a character list (leading and trailing whitespace). -/
def stripChars (l : List Char) : List Char :=
  ((l.dropWhile Char.isWhitespace).reverse.dropWhile Char.isWhitespace).reverse

/-- Python str.strip on a string. -/
def pyStrip (s : String) : String := ⟨stripChars s.data⟩

def digitVal (c : Char) : Nat := c.toNat - 48

/-- Hour field of strptime %I: the regex 1[0-2]|0[1-9]|[1-9]. Consuming two
digits when only the one digit alternative would let the rest of the pattern
match never changes the outcome, because the character after the hour must be
a colon, never a digit. -/
def hourField : List Char → Option (Nat × List Char)
  | c1 :: c2 :: rest =>
    if c1 = '1' ∧ '0' ≤ c2 ∧ c2 ≤ '2' then some (10 + digitVal c2, rest)
    else if c1 = '0' ∧ '1' ≤ c2 ∧ c2 ≤ '9' then some (digitVal c2, rest)
    else if '1' ≤ c1 ∧ c1 ≤ '9' then some (digitVal c1, c2 :: rest)
    else none
  | [c1] => if '1' ≤ c1 ∧ c1 ≤ '9' then some (digitVal c1, []) else none
  | [] => none

/-- Minute field of strptime %M: the regex [0-5]\d|\d. The character after the
minute must be whitespace, never a digit, so greedy matching is faithful. -/
def minuteField : List Char → Option (Nat × List Char)
  | c1 :: c2 :: rest =>
    if ('0' ≤ c1 ∧ c1 ≤ '5') ∧ c2.isDigit then some (10 * digitVal c1 + digitVal c2, rest)
    else if c1.isDigit then some (digitVal c1, c2 :: rest)
    else none
  | [c1] => if c1.isDigit then some (digitVal c1, []) else none
  | [] => none

/-- Core of strptime for the time portion of "%Y-%m-%d %I:%M %p": hour, colon,
minute, one or more whitespace characters, case insensitive AM or PM, end of
input. Returns the minute of day. -/
def parse12core (l : List Char) : Option Nat :=
  match hourField l with
  | none => none
  | some (h, l1) =>
    match l1 with
    | ':' :: l2 =>
      match minuteField l2 with
      | none => none
      | some (m, l3) =>
        match l3 with
        | c :: l4 =>
          if c.isWhitespace then
            match l4.dropWhile Char.isWhitespace with
            | a :: p :: l5 =>
              if (a = 'A' ∨ a = 'a') ∧ (p = 'M' ∨ p = 'm') ∧ l5 = [] then
                some ((if h = 12 then 0 else h) * 60 + m)
              else if (a = 'P' ∨ a = 'p') ∧ (p = 'M' ∨ p = 'm') ∧ l5 = [] then
                some ((if h = 12 then 12 else h + 12) * 60 + m)
              else none
            | _ => none
          else none
        | [] => none
    | _ => none

/-- Embedding of _parse_datetime_12h for form input: the date object is a day
index, the time text is stripped and parsed as a 12 hour time; the result is
an absolute minute count, none when strptime rejects the text. -/
def parse_datetime_12h (day : Nat) (timeTxt : String) : Option Nat :=
  match parse12core (stripChars timeTxt.data) with
  | some t => some (day * 1440 + t)
  | none => none

/-- A stored booking document. The four date and time fields hold parse
results of the stored strings, as described in the file header. -/
structure Booking where
  name : String
  email : String
  lab : String
  equipment : String
  start_date : Option Nat
  start_time : Option Nat
  end_date : Option Nat
  end_time : Option Nat
  slot : Option String
  timestamp : Nat
deriving DecidableEq, Repr

/-- The half open time interval of a stored record, present exactly when all
four stored date and time fields parse. -/
def intervalOf (r : Booking) : Option (Nat × Nat) :=
  match r.start_date, r.start_time, r.end_date, r.end_time with
  | some sd, some t1, some ed, some t2 => some (sd * 1440 + t1, ed * 1440 + t2)
  | _, _, _, _ => none

/-- Body of the submit conflict loop (app.py lines 363-371) for one stored
record. The two strptime calls on the stored date strings sit inside a
try/except whose except clause continues the loop, hence ok false when a date
field fails. The overlap test not (e_dt <= ex_start or s_dt >= ex_end) sits
outside the try: when ex_start is None the first comparison raises an uncaught
TypeError (error here), and when the first disjunct is false and ex_end is
None the second comparison raises likewise. ok true means the record is
appended to conflicts. -/
def recCheck (sdt edt : Nat) (r : Booking) : Except Unit Bool :=
  match r.start_date with
  | none => .ok false
  | some sd =>
    match r.end_date with
    | none => .ok false
    | some ed =>
      match r.start_time with
      | none => .error ()
      | some t1 =>
        if edt ≤ sd * 1440 + t1 then .ok false
        else
          match r.end_time with
          | none => .error ()
          | some t2 =>
            if sdt ≥ ed * 1440 + t2 then .ok false else .ok true

/-- The submit conflict loop over the queried records, in stream order.
Returns the conflicts list, or error when the loop raises. -/
def conflictScan (sdt edt : Nat) : List Booking → Except Unit (List Booking)
  | [] => .ok []
  | r :: rest =>
    match recCheck sdt edt r with
    | .error e => .error e
    | .ok true =>
      match conflictScan sdt edt rest with
      | .error e => .error e
      | .ok cs => .ok (r :: cs)
    | .ok false => conflictScan sdt edt rest

/-- The Firestore query of the submit handler: where equipment == e, plus
where slot == s for slotted equipment (app.py lines 358-360). -/
def submitQuery (equipment : String) (slot : Option String) (recs : List Booking) : List Booking :=
  match slot with
  | some sl => recs.filter fun r => decide (r.equipment = equipment ∧ r.slot = some sl)
  | none => recs.filter fun r => decide (r.equipment = equipment)

/-- Outcome of one run of the booking form submit handler. crash is the
uncaught TypeError of the conflict loop; every other constructor matches one
st.error / st.warning / st.success exit of the source. -/
inductive SubmitResult where
  | validationError
  | missingSlot
  | conflictError (conflicts : List Booking)
  | crash
  | ok (written : Booking)
deriving DecidableEq, Repr

/-- The per equipment label offered by the radio when no slot is free
(app.py line 352). -/
def noneLabel (equipment : String) : String :=
  if equipment = "IncuCyte" then "No slots available" else "No hoods available"

/-- The booking_data document built at app.py lines 376-387. The stored
date and time strings are strftime renderings of s_dt and e_dt, so their
parse results are the corresponding day indices and minutes of day. -/
def mkBooking (name email lab equipment : String) (slot : Option String)
    (sdt edt now : Nat) : Booking :=
  { name := pyStrip name
    email := email
    lab := pyStrip lab
    equipment := equipment
    start_date := some (sdt / 1440)
    start_time := some (sdt % 1440)
    end_date := some (edt / 1440)
    end_time := some (edt % 1440)
    slot := if equipment ∈ SLOT_EQUIPMENT then slot else none
    timestamp := now }

/-- The bookings collection plus the fresh document id counter. -/
structure St where
  nextId : Nat
  recs : List (Nat × Booking)
deriving DecidableEq, Repr

/-- One document set call (app.py line 388). -/
def applyWrite (r : Booking) (st : St) : St :=
  ⟨st.nextId + 1, (st.nextId, r) :: st.recs⟩

/-- The submit handler of the booking form (app.py lines 339-388) up to but
not including the write: validation of name and lab, of the parsed times, the
slot checks for slotted equipment, then the conflict query and loop. -/
def submitPrepare (name lab equipment : String) (slot : Option String)
    (sDay : Nat) (sTxt : String) (eDay : Nat) (eTxt : String)
    (email : String) (now : Nat) (st : St) : SubmitResult :=
  if name = "" ∨ pyStrip lab = "" then .validationError
  else
    match parse_datetime_12h sDay sTxt, parse_datetime_12h eDay eTxt with
    | some sdt, some edt =>
      if sdt ≥ edt then .validationError
      else
        if equipment ∈ SLOT_EQUIPMENT then
          match slot with
          | none => .missingSlot
          | some sl =>
            if sl = "" ∨ sl = noneLabel equipment then .missingSlot
            else
              match conflictScan sdt edt (submitQuery equipment (some sl) (st.recs.map Prod.snd)) with
              | .error _ => .crash
              | .ok [] => .ok (mkBooking name email lab equipment (some sl) sdt edt now)
              | .ok (c :: cs) => .conflictError (c :: cs)
        else
          match conflictScan sdt edt (submitQuery equipment none (st.recs.map Prod.snd)) with
          | .error _ => .crash
          | .ok [] => .ok (mkBooking name email lab equipment none sdt edt now)
          | .ok (c :: cs) => .conflictError (c :: cs)
    | _, _ => .validationError

/-- The whole submit handler: check, then on success the single document
write; every other outcome leaves the store untouched. -/
def submitBooking (name lab equipment : String) (slot : Option String)
    (sDay : Nat) (sTxt : String) (eDay : Nat) (eTxt : String)
    (email : String) (now : Nat) (st : St) : SubmitResult × St :=
  match submitPrepare name lab equipment slot sDay sTxt eDay eTxt email now st with
  | .ok r => (.ok r, applyWrite r st)
  | res => (res, st)

/-- Deletion of one document by id (the admin delete button, app.py line 594). -/
def deleteBooking (docId : Nat) (st : St) : St :=
  ⟨st.nextId, st.recs.filter fun p => decide (p.1 ≠ docId)⟩

/-- The operations that mutate the bookings collection. -/
inductive Step : St → St → Prop
  | submit (name lab equipment : String) (slot : Option String) (sDay : Nat) (sTxt : String)
      (eDay : Nat) (eTxt : String) (email : String) (now : Nat) (st : St) :
      Step st (submitBooking name lab equipment slot sDay sTxt eDay eTxt email now st).2
  | cancel (docId : Nat) (st : St) : Step st (deleteBooking docId st)

/-- States reachable from the empty store. -/
def Reachable (st : St) : Prop := Relation.ReflTransGen Step ⟨0, []⟩ st

/-- Two records are separated when, on the same equipment and slot, their
parsed intervals do not overlap under the half open rule; records without a
fully parsed interval constrain nothing. -/
def sepB (a b : Booking) : Prop :=
  a.equipment = b.equipment → a.slot = b.slot →
  match intervalOf a, intervalOf b with
  | some p, some q => p.2 ≤ q.1 ∨ p.1 ≥ q.2
  | _, _ => True

/-- The core invariant: live reservations are pairwise non overlapping per
(equipment, slot) pair. -/
def StoreInv (st : St) : Prop := st.recs.Pairwise fun a b => sepB a.2 b.2

/-- Empty table of per slot booking groups. -/
def emptyGroups : String → List (Nat × Nat) := fun _ => []

/-- per_slot_bookings[s].append((b_start, b_end)). -/
def addGroup (m : String → List (Nat × Nat)) (sl : String) (iv : Nat × Nat) :
    String → List (Nat × Nat) :=
  fun x => if x = sl then m sl ++ [iv] else m x

/-- The IncuCyte availability grouping loop (app.py lines 257-266): date
strptime failures continue via the except clause; a falsy slot or an
unparseable time is dropped by the guard if s and b_start and b_end; a truthy
slot outside the tray dictionary raises an uncaught KeyError on the append
(error here). -/
def incuScan : List Booking → (String → List (Nat × Nat)) →
    Except Unit (String → List (Nat × Nat))
  | [], m => .ok m
  | r :: rest, m =>
    match r.start_date, r.end_date with
    | some sd, some ed =>
      match r.slot with
      | some sl =>
        if sl = "" then incuScan rest m
        else
          match r.start_time, r.end_time with
          | some t1, some t2 =>
            if sl ∈ INCUCYTE_SLOTS_FLAT then
              incuScan rest (addGroup m sl (sd * 1440 + t1, ed * 1440 + t2))
            else .error ()
          | _, _ => incuScan rest m
      | none => incuScan rest m
    | _, _ => incuScan rest m

/-- The IncuCyte availability block (app.py lines 249-288): with a valid
requested interval it queries the IncuCyte records, groups them per slot and
marks a slot booked when any group member overlaps the request; otherwise
booked_slots stays empty and available_slots stays the empty list. Returns
(booked slot list, available slot list), or error on the KeyError. -/
def incucyteAvailability (reqS reqE : Option Nat) (recs : List Booking) :
    Except Unit (List String × List String) :=
  match reqS, reqE with
  | some rs, some re =>
    if rs < re then
      match incuScan (recs.filter fun r => decide (r.equipment = "IncuCyte")) emptyGroups with
      | .error e => .error e
      | .ok m =>
        let booked := INCUCYTE_SLOTS_FLAT.filter fun sl =>
          (m sl).any fun bnd => !(decide (re ≤ bnd.1) || decide (rs ≥ bnd.2))
        .ok (booked, INCUCYTE_SLOTS_FLAT.filter fun sl => !booked.contains sl)
    else .ok ([], [])
  | _, _ => .ok ([], [])

/-- The Fume Hood availability grouping loop (app.py lines 303-314): a falsy
slot or one outside the hood dictionary continues, so no KeyError is
possible; date strptime failures continue; unparsed times are dropped by the
guard if b_start and b_end. -/
def fhScan : List Booking → (String → List (Nat × Nat)) → String → List (Nat × Nat)
  | [], m => m
  | r :: rest, m =>
    match r.slot with
    | none => fhScan rest m
    | some sl =>
      if sl = "" ∨ sl ∉ FUME_HOOD_SLOTS then fhScan rest m
      else
        match r.start_date, r.end_date with
        | some sd, some ed =>
          match r.start_time, r.end_time with
          | some t1, some t2 => fhScan rest (addGroup m sl (sd * 1440 + t1, ed * 1440 + t2))
          | _, _ => fhScan rest m
        | _, _ => fhScan rest m

/-- The Fume Hood availability block (app.py lines 291-324): booked_slots
starts empty and available_slots starts as the full hood list, so with an
invalid or unspecified requested interval both hoods stay available; with a
valid interval the hoods are grouped and marked like the IncuCyte path. -/
def fumeHoodAvailability (reqS reqE : Option Nat) (recs : List Booking) :
    List String × List String :=
  match reqS, reqE with
  | some rs, some re =>
    if rs < re then
      let m := fhScan (recs.filter fun r => decide (r.equipment = "Fume Hood")) emptyGroups
      let booked := FUME_HOOD_SLOTS.filter fun sl =>
        (m sl).any fun bnd => !(decide (re ≤ bnd.1) || decide (rs ≥ bnd.2))
      (booked, FUME_HOOD_SLOTS.filter fun sl => !booked.contains sl)
    else ([], FUME_HOOD_SLOTS)
  | _, _ => ([], FUME_HOOD_SLOTS)

/-- The Upcoming Bookings listing (app.py lines 392-427). Non admins have no
Show all labs checkbox, so show_all_labs is False for them; the admin
checkbox value is the adminToggle argument. The order_by on timestamp only
permutes the rows and is not modelled; the date filter compares the stored
start_date string with the strftime of the chosen date, which on the field
abstraction is equality of parse results. -/
def upcomingRows (userEmail : String) (adminToggle : Bool) (labName : Option String)
    (filterEquipment : String) (filterDate : Option Nat) (recs : List Booking) :
    List Booking :=
  let show_all_labs := (userEmail == ADMIN_EMAIL) && adminToggle
  let my_lab_only := !show_all_labs
  recs.filter fun r =>
    (!(my_lab_only && !(r.lab == labName.getD ""))) &&
    (!(!(filterEquipment == "All") && !(r.equipment == filterEquipment))) &&
    (match filterDate with
     | some fd => r.start_date == some fd
     | none => true)

/-- Proof side characterisation of the per record conflict decision: true
exactly when the record parses fully and its interval overlaps the request
under the half open rule. -/
def hitB (sdt edt : Nat) (r : Booking) : Bool :=
  match intervalOf r with
  | some iv => !(decide (edt ≤ iv.1) || decide (sdt ≥ iv.2))
  | none => false

/-- Proof side characterisation of one availability group: the parsed
intervals, in stream order, of the records carrying the given slot. -/
def groupOf (sl : String) (recs : List Booking) : List (Nat × Nat) :=
  recs.filterMap fun r =>
    match r.slot, r.start_date, r.start_time, r.end_date, r.end_time with
    | some s, some sd, some t1, some ed, some t2 =>
      if s = sl then some (sd * 1440 + t1, ed * 1440 + t2) else none
    | _, _, _, _, _ => none

deriving instance DecidableEq for Except

theorem recCheck_ok_hitB {sdt edt : Nat} {r : Booking} {b : Bool}
    (h : recCheck sdt edt r = .ok b) : hitB sdt edt r = b := by
  cases hsd : r.start_date <;> cases hed : r.end_date <;>
    cases ht1 : r.start_time <;> cases ht2 : r.end_time <;>
    simp [recCheck, hsd, hed, ht1, ht2, hitB, intervalOf] at h ⊢ <;>
    first
    | exact h
    | (split_ifs at h ⊢ <;> simp_all)

theorem conflictScan_ok {sdt edt : Nat} :
    ∀ (l : List Booking) {cl}, conflictScan sdt edt l = .ok cl →
      cl = l.filter (hitB sdt edt) := by
  intro l
  induction l with
  | nil =>
    intro cl h
    simp only [conflictScan] at h
    cases h
    simp
  | cons r rest ih =>
    intro cl h
    unfold conflictScan at h
    cases hr : recCheck sdt edt r with
    | error e => rw [hr] at h; cases h
    | ok b =>
      rw [hr] at h
      have hb := recCheck_ok_hitB hr
      cases b with
      | true =>
        cases hsc : conflictScan sdt edt rest with
        | error e => rw [hsc] at h; cases h
        | ok cs =>
          rw [hsc] at h
          cases h
          simp [List.filter_cons, hb, ih hsc]
      | false =>
        simp [List.filter_cons, hb]
        exact ih h

theorem conflictScan_nil_sep {sdt edt : Nat} {l : List Booking}
    (h : conflictScan sdt edt l = .ok []) {r : Booking} (hr : r ∈ l)
    {bs be : Nat} (hiv : intervalOf r = some (bs, be)) :
    edt ≤ bs ∨ sdt ≥ be := by
  have hf := conflictScan_ok l h
  have hfalse : hitB sdt edt r = false := by
    by_contra hcon
    have hmem : r ∈ l.filter (hitB sdt edt) :=
      List.mem_filter.mpr ⟨hr, by simpa using hcon⟩
    rw [← hf] at hmem
    cases hmem
  unfold hitB at hfalse
  rw [hiv] at hfalse
  simp at hfalse
  omega

theorem intervalOf_mkBooking (n em l eq : String) (sf : Option String) (s e now : Nat) :
    intervalOf (mkBooking n em l eq sf s e now) = some (s, e) := by
  simp only [intervalOf, mkBooking]
  have h1 : s / 1440 * 1440 + s % 1440 = s := by omega
  have h2 : e / 1440 * 1440 + e % 1440 = e := by omega
  rw [h1, h2]

theorem submitBooking_fst {name lab equipment : String} {slot : Option String}
    {sDay : Nat} {sTxt : String} {eDay : Nat} {eTxt : String} {email : String} {now : Nat}
    {st : St} :
    (submitBooking name lab equipment slot sDay sTxt eDay eTxt email now st).1 =
      submitPrepare name lab equipment slot sDay sTxt eDay eTxt email now st := by
  cases hok : submitPrepare name lab equipment slot sDay sTxt eDay eTxt email now st <;>
    simp [submitBooking, hok]

theorem submitPrepare_ok_inv {name lab equipment : String} {slot : Option String}
    {sDay : Nat} {sTxt : String} {eDay : Nat} {eTxt : String} {email : String} {now : Nat}
    {st : St} {r : Booking}
    (h : submitPrepare name lab equipment slot sDay sTxt eDay eTxt email now st = .ok r) :
    ∃ sdt edt sf,
      parse_datetime_12h sDay sTxt = some sdt ∧ parse_datetime_12h eDay eTxt = some edt ∧
      sdt < edt ∧ r = mkBooking name email lab equipment sf sdt edt now ∧
      conflictScan sdt edt (submitQuery equipment sf (st.recs.map Prod.snd)) = .ok [] ∧
      ((equipment ∈ SLOT_EQUIPMENT ∧ sf = slot ∧ slot ≠ none) ∨
       (equipment ∉ SLOT_EQUIPMENT ∧ sf = none)) := by
  unfold submitPrepare at h
  by_cases hv : name = "" ∨ pyStrip lab = ""
  · rw [if_pos hv] at h; cases h
  rw [if_neg hv] at h
  cases hs : parse_datetime_12h sDay sTxt with
  | none => rw [hs] at h; cases h
  | some sdt =>
    cases he : parse_datetime_12h eDay eTxt with
    | none => rw [hs, he] at h; cases h
    | some edt =>
      rw [hs, he] at h
      dsimp only at h
      by_cases hge : sdt ≥ edt
      · rw [if_pos hge] at h; cases h
      rw [if_neg hge] at h
      by_cases hsl : equipment ∈ SLOT_EQUIPMENT
      · rw [if_pos hsl] at h
        cases slot with
        | none => cases h
        | some sl =>
          dsimp only at h
          by_cases hlbl : sl = "" ∨ sl = noneLabel equipment
          · rw [if_pos hlbl] at h; cases h
          rw [if_neg hlbl] at h
          cases hcs : conflictScan sdt edt
              (submitQuery equipment (some sl) (st.recs.map Prod.snd)) with
          | error e => rw [hcs] at h; cases h
          | ok cs =>
            rw [hcs] at h
            cases cs with
            | nil =>
              cases h
              exact ⟨sdt, edt, some sl, rfl, rfl, by omega, rfl, hcs,
                Or.inl ⟨hsl, rfl, by simp⟩⟩
            | cons c cs2 => cases h
      · rw [if_neg hsl] at h
        cases hcs : conflictScan sdt edt
            (submitQuery equipment none (st.recs.map Prod.snd)) with
        | error e => rw [hcs] at h; cases h
        | ok cs =>
          rw [hcs] at h
          cases cs with
          | nil =>
            cases h
            exact ⟨sdt, edt, none, rfl, rfl, by omega, rfl, hcs, Or.inr ⟨hsl, rfl⟩⟩
          | cons c cs2 => cases h

theorem mkBooking_slot_field {n em l eq : String} {sf slot : Option String} {s e now : Nat}
    (hsf : (eq ∈ SLOT_EQUIPMENT ∧ sf = slot ∧ slot ≠ none) ∨
           (eq ∉ SLOT_EQUIPMENT ∧ sf = none)) :
    (mkBooking n em l eq sf s e now).slot = sf := by
  rcases hsf with ⟨hin, _, _⟩ | ⟨hnin, hsfn⟩
  · simp [mkBooking, hin]
  · simp [mkBooking, hnin, hsfn]

theorem step_preserves_inv {st st2 : St} (hinv : StoreInv st) (hstep : Step st st2) :
    StoreInv st2 := by
  cases hstep with
  | submit n l eq sl sD sT eD eT em now =>
    cases hok : submitPrepare n l eq sl sD sT eD eT em now st with
    | ok r =>
      have hsb : (submitBooking n l eq sl sD sT eD eT em now st).2 = applyWrite r st := by
        simp [submitBooking, hok]
      rw [hsb]
      obtain ⟨sdt, edt, sf, hs, he, hlt, hr, hscan, hsf⟩ := submitPrepare_ok_inv hok
      unfold StoreInv applyWrite
      simp only [List.pairwise_cons]
      constructor
      · intro b hb
        intro heq hslot
        subst hr
        rw [intervalOf_mkBooking]
        cases hivb : intervalOf b.2 with
        | none => trivial
        | some q =>
          obtain ⟨bs, be⟩ := q
          have heq2 : b.2.equipment = eq := by
            rw [← heq]; simp [mkBooking]
          have hbslot : b.2.slot = sf := by
            rw [← hslot, mkBooking_slot_field hsf]
          have hbm : b.2 ∈ st.recs.map Prod.snd := List.mem_map_of_mem Prod.snd hb
          have hmem : b.2 ∈ submitQuery eq sf (st.recs.map Prod.snd) := by
            cases sf with
            | some s0 =>
              exact List.mem_filter.mpr ⟨hbm, by simp [heq2, hbslot]⟩
            | none =>
              exact List.mem_filter.mpr ⟨hbm, by simp [heq2]⟩
          exact conflictScan_nil_sep hscan hmem hivb
      · exact hinv
    | validationError => simpa [submitBooking, hok] using hinv
    | missingSlot => simpa [submitBooking, hok] using hinv
    | conflictError cs => simpa [submitBooking, hok] using hinv
    | crash => simpa [submitBooking, hok] using hinv
  | cancel docId =>
    unfold StoreInv deleteBooking
    exact hinv.sublist (List.filter_sublist _)

/-- C1: every operation of the store (submit, cancel/delete) preserves the
invariant that, for every (equipment, slot) pair, the parsed time intervals of
the live reservations are pairwise non overlapping under the half open rule,
and hence every state reachable from the empty store satisfies it. -/
theorem booking_store_no_overlap :
    (∀ st st2 : St, StoreInv st → Step st st2 → StoreInv st2) ∧
    (∀ st : St, Reachable st → StoreInv st) := by
  constructor
  · exact fun st st2 hinv hstep => step_preserves_inv hinv hstep
  · intro st h
    induction h with
    | refl => exact List.Pairwise.nil
    | tail hsteps hstep ih => exact step_preserves_inv ih hstep

/-- Witness: a concrete state reached by two slotted submissions satisfies the
invariant. -/
theorem booking_store_no_overlap_w :
    StoreInv (submitBooking "Bob" "Lab" "IncuCyte" (some "Top Right") 0 "01:00 PM" 0 "02:00 PM"
      "b@x" 1
      (submitBooking "Alice" "Lab" "IncuCyte" (some "Top Left") 0 "09:00 AM" 0 "10:00 AM"
        "a@x" 0 ⟨0, []⟩).2).2 :=
  booking_store_no_overlap.2 _
    (Relation.ReflTransGen.tail
      (Relation.ReflTransGen.single
        (Step.submit "Alice" "Lab" "IncuCyte" (some "Top Left") 0 "09:00 AM" 0 "10:00 AM"
          "a@x" 0 ⟨0, []⟩))
      (Step.submit "Bob" "Lab" "IncuCyte" (some "Top Right") 0 "01:00 PM" 0 "02:00 PM"
        "b@x" 1 _))

/-- C2: a successful submission performs exactly one durable write, namely the
new document prepended under a fresh id; any failed submission (validation
failure, missing slot, conflict, or the crash on a malformed stored record)
leaves the store exactly unchanged. -/
theorem submit_write_effects (name lab equipment : String) (slot : Option String)
    (sDay : Nat) (sTxt : String) (eDay : Nat) (eTxt : String) (email : String) (now : Nat)
    (st : St) :
    (∃ r, (submitBooking name lab equipment slot sDay sTxt eDay eTxt email now st).1 = .ok r ∧
      (submitBooking name lab equipment slot sDay sTxt eDay eTxt email now st).2 =
        ⟨st.nextId + 1, (st.nextId, r) :: st.recs⟩) ∨
    ((∀ r, (submitBooking name lab equipment slot sDay sTxt eDay eTxt email now st).1 ≠ .ok r) ∧
      (submitBooking name lab equipment slot sDay sTxt eDay eTxt email now st).2 = st) := by
  cases hok : submitPrepare name lab equipment slot sDay sTxt eDay eTxt email now st with
  | ok r =>
    left
    exact ⟨r, by simp [submitBooking, hok], by simp [submitBooking, hok, applyWrite]⟩
  | validationError => right; constructor <;> simp [submitBooking, hok]
  | missingSlot => right; constructor <;> simp [submitBooking, hok]
  | conflictError cs => right; constructor <;> simp [submitBooking, hok]
  | crash => right; constructor <;> simp [submitBooking, hok]

/-- Witness: the write discipline evaluated at one successful submission and
at one submission with the malformed time text 25:99 XM. -/
theorem submit_write_effects_w :
    ((∃ r, (submitBooking "Alice" "L" "Centrifuge" none 0 "09:00 AM" 0 "10:00 AM" "e" 0
        ⟨0, []⟩).1 = .ok r ∧
      (submitBooking "Alice" "L" "Centrifuge" none 0 "09:00 AM" 0 "10:00 AM" "e" 0
        ⟨0, []⟩).2 = ⟨1, [(0, r)]⟩) ∨
     ((∀ r, (submitBooking "Alice" "L" "Centrifuge" none 0 "09:00 AM" 0 "10:00 AM" "e" 0
        ⟨0, []⟩).1 ≠ .ok r) ∧
      (submitBooking "Alice" "L" "Centrifuge" none 0 "09:00 AM" 0 "10:00 AM" "e" 0
        ⟨0, []⟩).2 = ⟨0, []⟩)) ∧
    ((∃ r, (submitBooking "Alice" "L" "Centrifuge" none 0 "25:99 XM" 0 "10:00 AM" "e" 0
        ⟨0, []⟩).1 = .ok r ∧
      (submitBooking "Alice" "L" "Centrifuge" none 0 "25:99 XM" 0 "10:00 AM" "e" 0
        ⟨0, []⟩).2 = ⟨1, [(0, r)]⟩) ∨
     ((∀ r, (submitBooking "Alice" "L" "Centrifuge" none 0 "25:99 XM" 0 "10:00 AM" "e" 0
        ⟨0, []⟩).1 ≠ .ok r) ∧
      (submitBooking "Alice" "L" "Centrifuge" none 0 "25:99 XM" 0 "10:00 AM" "e" 0
        ⟨0, []⟩).2 = ⟨0, []⟩)) :=
  ⟨submit_write_effects "Alice" "L" "Centrifuge" none 0 "09:00 AM" 0 "10:00 AM" "e" 0 ⟨0, []⟩,
   submit_write_effects "Alice" "L" "Centrifuge" none 0 "25:99 XM" 0 "10:00 AM" "e" 0 ⟨0, []⟩⟩

/-- C10: a record written by a successful submission carries a null slot field
exactly when the equipment is unslotted, and for slotted equipment it carries
exactly the slot selected at submission. -/
theorem stored_slot_discipline (name lab equipment : String) (slot : Option String)
    (sDay : Nat) (sTxt : String) (eDay : Nat) (eTxt : String) (email : String) (now : Nat)
    (st : St) (r : Booking)
    (h : (submitBooking name lab equipment slot sDay sTxt eDay eTxt email now st).1 = .ok r) :
    (r.slot = none ↔ equipment ∉ SLOT_EQUIPMENT) ∧
    (equipment ∈ SLOT_EQUIPMENT → r.slot = slot) := by
  rw [submitBooking_fst] at h
  obtain ⟨sdt, edt, sf, _, _, _, hr, _, hsf⟩ := submitPrepare_ok_inv h
  subst hr
  rw [mkBooking_slot_field hsf]
  rcases hsf with ⟨hin, hsfs, hslne⟩ | ⟨hnin, hsfn⟩
  · subst hsfs
    exact ⟨⟨fun h0 => absurd h0 hslne, fun h0 => absurd hin h0⟩, fun _ => rfl⟩
  · subst hsfn
    exact ⟨⟨fun _ => hnin, fun _ => rfl⟩, fun h0 => absurd h0 hnin⟩

/-- Witness: the slot discipline at one slotted and the record written there. -/
theorem stored_slot_discipline_w :
    (((⟨"Alice", "e", "L", "IncuCyte", some 0, some 540, some 0, some 600, some "Top Left", 0⟩ :
        Booking).slot = none ↔ "IncuCyte" ∉ SLOT_EQUIPMENT) ∧
     ("IncuCyte" ∈ SLOT_EQUIPMENT →
      (⟨"Alice", "e", "L", "IncuCyte", some 0, some 540, some 0, some 600, some "Top Left", 0⟩ :
        Booking).slot = some "Top Left")) :=
  stored_slot_discipline "Alice" "L" "IncuCyte" (some "Top Left") 0 "09:00 AM" 0 "10:00 AM"
    "e" 0 ⟨0, []⟩ _ (by decide)

/-- C4: the conflict decision of the submit handler on a fully parsed stored
record is exactly the half open overlap predicate, overlap iff
not (A.end <= B.start or A.start >= B.end); in particular two merely touching
bookings 09:00-10:00 and 10:00-11:00 on the same IncuCyte slot are both
admitted, the second against a store already holding the first. -/
theorem overlap_predicate_half_open :
    (∀ (sdt edt : Nat) (r : Booking) (bs be : Nat), intervalOf r = some (bs, be) →
      (recCheck sdt edt r = .ok true ↔ ¬ (edt ≤ bs ∨ sdt ≥ be))) ∧
    ((submitBooking "Alice" "Lab" "IncuCyte" (some "Top Left") 0 "09:00 AM" 0 "10:00 AM"
        "a" 0 ⟨0, []⟩).1 =
      .ok ⟨"Alice", "a", "Lab", "IncuCyte", some 0, some 540, some 0, some 600,
        some "Top Left", 0⟩ ∧
     (submitBooking "Bob" "Lab" "IncuCyte" (some "Top Left") 0 "10:00 AM" 0 "11:00 AM" "b" 1
        (submitBooking "Alice" "Lab" "IncuCyte" (some "Top Left") 0 "09:00 AM" 0 "10:00 AM"
          "a" 0 ⟨0, []⟩).2).1 =
      .ok ⟨"Bob", "b", "Lab", "IncuCyte", some 0, some 600, some 0, some 660,
        some "Top Left", 1⟩) := by
  constructor
  · intro sdt edt r bs be hiv
    cases hsd : r.start_date <;> cases ht1 : r.start_time <;>
      cases hed : r.end_date <;> cases ht2 : r.end_time <;>
      simp [intervalOf, hsd, ht1, hed, ht2] at hiv
    obtain ⟨hbs, hbe⟩ := hiv
    simp only [recCheck, hsd, hed, ht1, ht2, hbs, hbe]
    split_ifs <;> simp_all
  · exact ⟨by decide, by decide⟩

/-- Witness: the overlap predicate applied to one concrete parsed record. -/
theorem overlap_predicate_half_open_w :
    recCheck 540 600
      (⟨"C", "c", "Lab", "IncuCyte", some 0, some 560, some 0, some 620,
        some "Top Left", 0⟩ : Booking) = .ok true ↔ ¬ (600 ≤ 560 ∨ 540 ≥ 620) :=
  overlap_predicate_half_open.1 540 600 _ 560 620 (by decide)

/-- C6 counterexample: a submission for the slotted IncuCyte with the slot
value Bogus, which is not in the IncuCyte slot list, passes the submit checks,
is not rejected with the missing slot warning, and is durably written with
slot Bogus: the handler checks only falsiness and the sentinel label, not
membership in the slot list. -/
theorem slot_membership_not_checked_cex :
    (submitBooking "Alice" "L" "IncuCyte" (some "Bogus") 0 "09:00 AM" 0 "10:00 AM" "e" 0
      ⟨0, []⟩).1 =
      .ok ⟨"Alice", "e", "L", "IncuCyte", some 0, some 540, some 0, some 600,
        some "Bogus", 0⟩ ∧
    "Bogus" ∉ INCUCYTE_SLOTS_FLAT ∧
    (submitBooking "Alice" "L" "IncuCyte" (some "Bogus") 0 "09:00 AM" 0 "10:00 AM" "e" 0
      ⟨0, []⟩).1 ≠ SubmitResult.missingSlot := by decide

/-- C6 amended: for slotted equipment with otherwise valid input, the submit
handler rejects with the missing slot warning exactly when the slot value is
falsy (absent or the empty string) or equals the no-slots sentinel label of
the equipment, and such a rejection performs no write. Membership of the slot
in the slot list of the equipment is not checked by the handler; it is only
ensured upstream by the radio options. -/
theorem slot_validation_amended (name lab equipment : String) (slot : Option String)
    (sDay : Nat) (sTxt : String) (eDay : Nat) (eTxt : String) (email : String) (now : Nat)
    (st : St) (sdt edt : Nat)
    (hv : ¬ (name = "" ∨ pyStrip lab = ""))
    (hs : parse_datetime_12h sDay sTxt = some sdt)
    (he : parse_datetime_12h eDay eTxt = some edt)
    (hlt : sdt < edt)
    (hsl : equipment ∈ SLOT_EQUIPMENT) :
    ((submitBooking name lab equipment slot sDay sTxt eDay eTxt email now st).1 =
        SubmitResult.missingSlot ↔
      (slot = none ∨ slot = some "" ∨ slot = some (noneLabel equipment))) ∧
    ((submitBooking name lab equipment slot sDay sTxt eDay eTxt email now st).1 =
        SubmitResult.missingSlot →
      (submitBooking name lab equipment slot sDay sTxt eDay eTxt email now st).2 = st) := by
  constructor
  · rw [submitBooking_fst]
    unfold submitPrepare
    rw [if_neg hv, hs, he]
    dsimp only
    rw [if_neg (by omega : ¬ sdt ≥ edt), if_pos hsl]
    cases slot with
    | none => simp
    | some sl =>
      dsimp only
      by_cases hlbl : sl = "" ∨ sl = noneLabel equipment
      · rw [if_pos hlbl]
        simp only [Option.some.injEq]
        rcases hlbl with h | h <;> simp [h]
      · rw [if_neg hlbl]
        push_neg at hlbl
        cases hcs : conflictScan sdt edt
            (submitQuery equipment (some sl) (st.recs.map Prod.snd)) with
        | error e => simp [hlbl.1, hlbl.2]
        | ok cs => cases cs <;> simp [hlbl.1, hlbl.2]
  · intro hms
    rw [submitBooking_fst] at hms
    simp [submitBooking, hms]

/-- Witness: the amended slot validation at a concrete submission with no slot
selected for the Fume Hood. -/
theorem slot_validation_amended_w :
    (((submitBooking "A" "L" "Fume Hood" none 0 "09:00 AM" 0 "10:00 AM" "e" 0 ⟨0, []⟩).1 =
        SubmitResult.missingSlot ↔
      ((none : Option String) = none ∨ (none : Option String) = some "" ∨
        (none : Option String) = some (noneLabel "Fume Hood"))) ∧
     ((submitBooking "A" "L" "Fume Hood" none 0 "09:00 AM" 0 "10:00 AM" "e" 0 ⟨0, []⟩).1 =
        SubmitResult.missingSlot →
      (submitBooking "A" "L" "Fume Hood" none 0 "09:00 AM" 0 "10:00 AM" "e" 0 ⟨0, []⟩).2 =
        ⟨0, []⟩)) :=
  slot_validation_amended "A" "L" "Fume Hood" none 0 "09:00 AM" 0 "10:00 AM" "e" 0 ⟨0, []⟩
    540 600 (by decide) (by decide) (by decide) (by decide) (by decide)

/-- C5 counterexample: with a completely unspecified requested interval the
Fume Hood availability path reports both hoods as available and selectable,
even though one hood holds a stored booking; unparsed input is treated as
free, not as a distinct unknown status. -/
theorem unknown_availability_cex :
    fumeHoodAvailability none none
      [⟨"A", "e", "L", "Fume Hood", some 0, some 540, some 0, some 600,
        some "Fume Hood 1", 0⟩] =
      ([], ["Fume Hood 1", "Fume Hood 2"]) := by decide

/-- C5 amended: an empty or invalid requested interval (missing or unparsed
text, or start not before end) produces no distinct unknown status. The
IncuCyte path leaves booked_slots and available_slots empty, so no tray slot
is selectable, while its grid tags every slot as available; the Fume Hood path
keeps both hoods tagged available and selectable. -/
theorem unknown_availability_amended (reqS reqE : Option Nat) (recs recs2 : List Booking)
    (hbad : ∀ s e, reqS = some s → reqE = some e → ¬ s < e) :
    incucyteAvailability reqS reqE recs = .ok ([], []) ∧
    fumeHoodAvailability reqS reqE recs2 = ([], FUME_HOOD_SLOTS) := by
  cases reqS with
  | none => exact ⟨rfl, rfl⟩
  | some s =>
    cases reqE with
    | none => exact ⟨rfl, rfl⟩
    | some e =>
      have hnb : ¬ s < e := hbad s e rfl rfl
      constructor
      · simp [incucyteAvailability, hnb]
      · simp [fumeHoodAvailability, hnb]

/-- Witness: the amended statement at a concrete inverted interval. -/
theorem unknown_availability_amended_w :
    incucyteAvailability (some 600) (some 540) [] = .ok ([], []) ∧
    fumeHoodAvailability (some 600) (some 540)
      [⟨"A", "e", "L", "Fume Hood", some 0, some 540, some 0, some 600,
        some "Fume Hood 1", 0⟩] = ([], FUME_HOOD_SLOTS) :=
  unknown_availability_amended (some 600) (some 540) _ _
    (fun s e hs he => by cases hs; cases he; omega)

/-- C9 counterexample: a stored record whose date strings parse but whose
start time does not blocks admission of an overlapping new booking: the
submit handler ends in the uncaught TypeError rather than skipping the
record, while the identical submission succeeds once the record is removed. -/
theorem parse_skip_cex :
    (submitBooking "A" "L" "Centrifuge" none 0 "09:00 AM" 0 "10:00 AM" "e" 5
      ⟨1, [(0, ⟨"B", "e", "L", "Centrifuge", some 0, none, some 0, some 600, none, 0⟩)]⟩).1 =
      SubmitResult.crash ∧
    (submitBooking "A" "L" "Centrifuge" none 0 "09:00 AM" 0 "10:00 AM" "e" 5 ⟨1, []⟩).1 =
      .ok ⟨"A", "e", "L", "Centrifuge", some 0, some 540, some 0, some 600, none, 5⟩ := by
  decide

/-- C9 amended: the two availability grouping loops silently skip any stored
record with an unparseable date or time field, and the admission conflict loop
silently skips records whose stored date strings fail to parse; but a record
whose dates parse while its start time does not makes the admission loop raise
an uncaught TypeError, aborting the submission with no write instead of being
skipped. -/
theorem parse_skip_amended :
    (∀ (sdt edt : Nat) (r : Booking) (l : List Booking),
      r.start_date = none ∨ r.end_date = none →
      conflictScan sdt edt (r :: l) = conflictScan sdt edt l) ∧
    (∀ (r : Booking) (recs : List Booking) (m : String → List (Nat × Nat)),
      (r.start_date = none ∨ r.start_time = none ∨ r.end_date = none ∨ r.end_time = none) →
      incuScan (r :: recs) m = incuScan recs m ∧ fhScan (r :: recs) m = fhScan recs m) ∧
    (∀ (sdt edt : Nat) (r : Booking) (l : List Booking),
      r.start_date ≠ none → r.end_date ≠ none → r.start_time = none →
      conflictScan sdt edt (r :: l) = .error ()) := by
  refine ⟨?_, ?_, ?_⟩
  · intro sdt edt r l hbad
    have hrc : recCheck sdt edt r = .ok false := by
      rcases hbad with h | h
      · simp [recCheck, h]
      · cases hsd : r.start_date <;> simp [recCheck, hsd, h]
    simp [conflictScan, hrc]
  · intro r recs m hbad
    constructor
    · rcases hbad with h | h | h | h <;>
        cases hsd : r.start_date <;> cases hed : r.end_date <;>
        cases hsl : r.slot <;>
        simp_all [incuScan]
    · rcases hbad with h | h | h | h <;>
        cases hsd : r.start_date <;> cases hed : r.end_date <;>
        cases hsl : r.slot <;>
        simp_all [fhScan]
  · intro sdt edt r l h1 h2 h3
    cases hsd : r.start_date with
    | none => exact absurd hsd h1
    | some sd =>
      cases hed : r.end_date with
      | none => exact absurd hed h2
      | some ed =>
        have hrc : recCheck sdt edt r = .error () := by
          simp [recCheck, hsd, hed, h3]
        simp [conflictScan, hrc]

/-- Witness: the amended skip behaviour at a record with a missing start date. -/
theorem parse_skip_amended_w :
    conflictScan 540 600
      [⟨"B", "e", "L", "Centrifuge", none, some 540, some 0, some 600, none, 0⟩] =
      conflictScan 540 600 [] :=
  parse_skip_amended.1 540 600 _ [] (Or.inl rfl)

/-- C7: the Upcoming Bookings listing returns, for a non admin identity, only
records whose lab equals the session lab (so a member of lab L1 never
receives a record of lab L2), while the admin with the all labs toggle and no
equipment or date filter receives every stored record. -/
theorem lab_visibility (userEmail : String) (adminToggle : Bool) (labName : Option String)
    (filterEquipment : String) (filterDate : Option Nat) (recs : List Booking) (r : Booking) :
    (userEmail ≠ ADMIN_EMAIL →
      r ∈ upcomingRows userEmail adminToggle labName filterEquipment filterDate recs →
      r.lab = labName.getD "") ∧
    (upcomingRows ADMIN_EMAIL true labName "All" none recs = recs) := by
  constructor
  · intro hadmin hmem
    have hbe : (userEmail == ADMIN_EMAIL) = false := beq_eq_false_iff_ne.mpr hadmin
    unfold upcomingRows at hmem
    have hp := (List.mem_filter.mp hmem).2
    simp [hbe] at hp
    exact hp.1.1
  · unfold upcomingRows
    simp

/-- Witness: the lab scoping applied to a concrete two lab store for a non
admin member of L1. -/
theorem lab_visibility_w :
    (⟨"A", "e", "L1", "IncuCyte", some 0, some 540, some 0, some 600,
      some "Top Left", 0⟩ : Booking).lab = (some "L1").getD "" :=
  (lab_visibility "x@y" false (some "L1") "All" none
    [⟨"A", "e", "L1", "IncuCyte", some 0, some 540, some 0, some 600, some "Top Left", 0⟩,
     ⟨"B", "e", "L2", "IncuCyte", some 0, some 540, some 0, some 600, some "Top Left", 0⟩]
    ⟨"A", "e", "L1", "IncuCyte", some 0, some 540, some 0, some 600, some "Top Left", 0⟩).1
    (by decide) (by decide)

/-- C8: the check then act race evaluated at a concrete interleaved schedule.
The submit handler runs the conflict check (submitPrepare) and the document
write (applyWrite) as two separate Firestore operations with no transaction or
lock, so two callers can both run the check against the same store before
either write lands: both checks succeed for overlapping intervals on the same
(equipment, slot), both writes are applied, and the resulting store violates
the pairwise non overlap invariant — contradicting the claim that never both
succeed. -/
theorem race_both_admitted :
    (submitPrepare "Alice" "Lab" "IncuCyte" (some "Top Left") 0 "09:00 AM" 0 "10:00 AM"
        "a" 0 ⟨0, []⟩ =
      .ok ⟨"Alice", "a", "Lab", "IncuCyte", some 0, some 540, some 0, some 600,
        some "Top Left", 0⟩) ∧
    (submitPrepare "Bob" "Lab" "IncuCyte" (some "Top Left") 0 "09:30 AM" 0 "10:30 AM"
        "b" 1 ⟨0, []⟩ =
      .ok ⟨"Bob", "b", "Lab", "IncuCyte", some 0, some 570, some 0, some 630,
        some "Top Left", 1⟩) ∧
    ¬ StoreInv (applyWrite
        ⟨"Bob", "b", "Lab", "IncuCyte", some 0, some 570, some 0, some 630,
          some "Top Left", 1⟩
        (applyWrite
          ⟨"Alice", "a", "Lab", "IncuCyte", some 0, some 540, some 0, some 600,
            some "Top Left", 0⟩ ⟨0, []⟩)) := by
  refine ⟨by decide, by decide, ?_⟩
  intro hinv
  unfold StoreInv applyWrite at hinv
  simp only [List.pairwise_cons] at hinv
  have hsep := hinv.1
    (0, ⟨"Alice", "a", "Lab", "IncuCyte", some 0, some 540, some 0, some 600,
      some "Top Left", 0⟩) (by simp)
  have hd := hsep rfl rfl
  simp [intervalOf] at hd

theorem incuScan_ok_of_slots (recs : List Booking) :
    ∀ (m : String → List (Nat × Nat)),
      (∀ r ∈ recs, ∀ s, r.slot = some s → s ∈ INCUCYTE_SLOTS_FLAT) →
      ∃ m2, incuScan recs m = .ok m2 := by
  induction recs with
  | nil => exact fun m _ => ⟨m, rfl⟩
  | cons r rest ih =>
    intro m h
    have hrest : ∀ r2 ∈ rest, ∀ s, r2.slot = some s → s ∈ INCUCYTE_SLOTS_FLAT :=
      fun r2 h2 => h r2 (List.mem_cons_of_mem _ h2)
    cases hsd : r.start_date with
    | none => simpa [incuScan, hsd] using ih m hrest
    | some sd =>
      cases hed : r.end_date with
      | none => simpa [incuScan, hsd, hed] using ih m hrest
      | some ed =>
        cases hsl : r.slot with
        | none => simpa [incuScan, hsd, hed, hsl] using ih m hrest
        | some sl =>
          by_cases hemp : sl = ""
          · simpa [incuScan, hsd, hed, hsl, hemp] using ih m hrest
          · cases ht1 : r.start_time with
            | none => simpa [incuScan, hsd, hed, hsl, hemp, ht1] using ih m hrest
            | some t1 =>
              cases ht2 : r.end_time with
              | none => simpa [incuScan, hsd, hed, hsl, hemp, ht1, ht2] using ih m hrest
              | some t2 =>
                have hin : sl ∈ INCUCYTE_SLOTS_FLAT := h r (List.mem_cons_self r rest) sl hsl
                simpa [incuScan, hsd, hed, hsl, hemp, ht1, ht2, hin] using
                  ih (addGroup m sl (sd * 1440 + t1, ed * 1440 + t2)) hrest

theorem groupOf_cons_skip {sl : String} {r : Booking} (rest : List Booking)
    (h : r.start_date = none ∨ r.start_time = none ∨ r.end_date = none ∨ r.end_time = none ∨
         r.slot = none ∨ r.slot ≠ some sl) :
    groupOf sl (r :: rest) = groupOf sl rest := by
  cases hs : r.slot <;> cases h1 : r.start_date <;> cases h2 : r.start_time <;>
    cases h3 : r.end_date <;> cases h4 : r.end_time <;>
    simp_all [groupOf, List.filterMap_cons]

theorem groupOf_cons_hit {sl : String} {r : Booking} (rest : List Booking)
    {sd t1 ed t2 : Nat}
    (hs : r.slot = some sl) (h1 : r.start_date = some sd) (h2 : r.start_time = some t1)
    (h3 : r.end_date = some ed) (h4 : r.end_time = some t2) :
    groupOf sl (r :: rest) = (sd * 1440 + t1, ed * 1440 + t2) :: groupOf sl rest := by
  simp [groupOf, List.filterMap_cons, hs, h1, h2, h3, h4]

theorem incuScan_groups (recs : List Booking) :
    ∀ (m m2 : String → List (Nat × Nat)), incuScan recs m = .ok m2 →
      ∀ sl, sl ≠ "" → m2 sl = m sl ++ groupOf sl recs := by
  induction recs with
  | nil =>
    intro m m2 h sl _
    simp only [incuScan] at h
    cases h
    simp [groupOf]
  | cons r rest ih =>
    intro m m2 h sl hne
    rw [incuScan] at h
    cases hsd : r.start_date with
    | none =>
      rw [hsd] at h; dsimp only at h
      rw [ih m m2 h sl hne, groupOf_cons_skip rest (Or.inl hsd)]
    | some sd =>
      rw [hsd] at h
      cases hed : r.end_date with
      | none =>
        rw [hed] at h; dsimp only at h
        rw [ih m m2 h sl hne, groupOf_cons_skip rest (Or.inr (Or.inr (Or.inl hed)))]
      | some ed =>
        rw [hed] at h
        cases hsl2 : r.slot with
        | none =>
          rw [hsl2] at h; dsimp only at h
          rw [ih m m2 h sl hne,
            groupOf_cons_skip rest (Or.inr (Or.inr (Or.inr (Or.inr (Or.inl hsl2)))))]
        | some sl2 =>
          rw [hsl2] at h; dsimp only at h
          by_cases hemp : sl2 = ""
          · rw [if_pos hemp] at h
            have hns : r.slot ≠ some sl := by
              rw [hsl2, hemp]
              intro hcon
              exact hne (Option.some.inj hcon).symm
            rw [ih m m2 h sl hne,
              groupOf_cons_skip rest (Or.inr (Or.inr (Or.inr (Or.inr (Or.inr hns)))))]
          · rw [if_neg hemp] at h
            cases ht1 : r.start_time with
            | none =>
              rw [ht1] at h; dsimp only at h
              rw [ih m m2 h sl hne, groupOf_cons_skip rest (Or.inr (Or.inl ht1))]
            | some t1 =>
              rw [ht1] at h
              cases ht2 : r.end_time with
              | none =>
                rw [ht2] at h; dsimp only at h
                rw [ih m m2 h sl hne,
                  groupOf_cons_skip rest (Or.inr (Or.inr (Or.inr (Or.inl ht2))))]
              | some t2 =>
                rw [ht2] at h; dsimp only at h
                by_cases hin : sl2 ∈ INCUCYTE_SLOTS_FLAT
                · rw [if_pos hin] at h
                  by_cases heq : sl2 = sl
                  · rw [heq] at hsl2 h
                    rw [ih _ m2 h sl hne,
                      groupOf_cons_hit rest hsl2 hsd ht1 hed ht2]
                    simp [addGroup]
                  · have hns : r.slot ≠ some sl := by
                      rw [hsl2]
                      intro hcon
                      exact heq (Option.some.inj hcon)
                    rw [ih _ m2 h sl hne,
                      groupOf_cons_skip rest (Or.inr (Or.inr (Or.inr (Or.inr (Or.inr hns)))))]
                    have hag : addGroup m sl2 (sd * 1440 + t1, ed * 1440 + t2) sl = m sl := by
                      unfold addGroup
                      rw [if_neg (fun hcon => heq hcon.symm)]
                    rw [hag]
                · rw [if_neg hin] at h
                  cases h

theorem fhScan_groups (recs : List Booking) :
    ∀ (m : String → List (Nat × Nat)) (sl : String), sl ∈ FUME_HOOD_SLOTS →
      fhScan recs m sl = m sl ++ groupOf sl recs := by
  induction recs with
  | nil =>
    intro m sl _
    simp [fhScan, groupOf]
  | cons r rest ih =>
    intro m sl hmem
    have hne : sl ≠ "" := by
      intro h0
      rw [h0] at hmem
      simp [FUME_HOOD_SLOTS] at hmem
    rw [fhScan]
    cases hsl2 : r.slot with
    | none =>
      dsimp only
      rw [ih m sl hmem,
        groupOf_cons_skip rest (Or.inr (Or.inr (Or.inr (Or.inr (Or.inl hsl2)))))]
    | some sl2 =>
      dsimp only
      by_cases hguard : sl2 = "" ∨ sl2 ∉ FUME_HOOD_SLOTS
      · rw [if_pos hguard]
        have hns : r.slot ≠ some sl := by
          rw [hsl2]
          intro hcon
          have heq := Option.some.inj hcon
          rcases hguard with hg | hg
          · exact hne (heq ▸ hg)
          · exact hg (heq.symm ▸ hmem)
        rw [ih m sl hmem,
          groupOf_cons_skip rest (Or.inr (Or.inr (Or.inr (Or.inr (Or.inr hns)))))]
      · rw [if_neg hguard]
        cases hsd : r.start_date with
        | none =>
          dsimp only
          rw [ih m sl hmem, groupOf_cons_skip rest (Or.inl hsd)]
        | some sd =>
          cases hed : r.end_date with
          | none =>
            dsimp only
            rw [ih m sl hmem, groupOf_cons_skip rest (Or.inr (Or.inr (Or.inl hed)))]
          | some ed =>
            cases ht1 : r.start_time with
            | none =>
              dsimp only
              rw [ih m sl hmem, groupOf_cons_skip rest (Or.inr (Or.inl ht1))]
            | some t1 =>
              cases ht2 : r.end_time with
              | none =>
                dsimp only
                rw [ih m sl hmem,
                  groupOf_cons_skip rest (Or.inr (Or.inr (Or.inr (Or.inl ht2))))]
              | some t2 =>
                dsimp only
                by_cases heq : sl2 = sl
                · rw [heq] at hsl2
                  rw [ih _ sl hmem, groupOf_cons_hit rest hsl2 hsd ht1 hed ht2]
                  rw [heq]
                  simp [addGroup]
                · have hns : r.slot ≠ some sl := by
                    rw [hsl2]
                    intro hcon
                    exact heq (Option.some.inj hcon)
                  rw [ih _ sl hmem,
                    groupOf_cons_skip rest (Or.inr (Or.inr (Or.inr (Or.inr (Or.inr hns)))))]
                  have hag : addGroup m sl2 (sd * 1440 + t1, ed * 1440 + t2) sl = m sl := by
                    unfold addGroup
                    rw [if_neg (fun hcon => heq hcon.symm)]
                  rw [hag]

theorem groupOf_any (sl : String) (sdt edt : Nat) (recs : List Booking) :
    (∀ r ∈ recs, r.slot = some sl) →
    ((groupOf sl recs).any fun bnd => !(decide (edt ≤ bnd.1) || decide (sdt ≥ bnd.2))) =
      recs.any (hitB sdt edt) := by
  induction recs with
  | nil => intro _; simp [groupOf]
  | cons r rest ih =>
    intro hall
    have hr : r.slot = some sl := hall r (List.mem_cons_self r rest)
    have hrest : ∀ r2 ∈ rest, r2.slot = some sl :=
      fun r2 h2 => hall r2 (List.mem_cons_of_mem _ h2)
    cases h1 : r.start_date with
    | none =>
      rw [groupOf_cons_skip rest (Or.inl h1), ih hrest]
      simp [List.any_cons, hitB, intervalOf, h1]
    | some sd =>
      cases h2 : r.start_time with
      | none =>
        rw [groupOf_cons_skip rest (Or.inr (Or.inl h2)), ih hrest]
        simp [List.any_cons, hitB, intervalOf, h1, h2]
      | some t1 =>
        cases h3 : r.end_date with
        | none =>
          rw [groupOf_cons_skip rest (Or.inr (Or.inr (Or.inl h3))), ih hrest]
          simp [List.any_cons, hitB, intervalOf, h1, h2, h3]
        | some ed =>
          cases h4 : r.end_time with
          | none =>
            rw [groupOf_cons_skip rest (Or.inr (Or.inr (Or.inr (Or.inl h4)))), ih hrest]
            simp [List.any_cons, hitB, intervalOf, h1, h2, h3, h4]
          | some t2 =>
            rw [groupOf_cons_hit rest hr h1 h2 h3 h4, List.any_cons, List.any_cons,
              ih hrest]
            simp [hitB, intervalOf, h1, h2, h3, h4]

theorem filter_ne_nil_iff_any {α : Type} {p : α → Bool} {l : List α} :
    l.filter p ≠ [] ↔ l.any p = true := by
  rw [List.any_eq_true]
  constructor
  · intro h
    cases hf : l.filter p with
    | nil => exact absurd hf h
    | cons a t =>
      have ha : a ∈ l.filter p := by rw [hf]; exact List.mem_cons_self a t
      have := List.mem_filter.mp ha
      exact ⟨a, this.1, this.2⟩
  · rintro ⟨a, ha, hp⟩ hnil
    have hmem : a ∈ l.filter p := List.mem_filter.mpr ⟨ha, hp⟩
    rw [hnil] at hmem
    cases hmem

/-- C3 counterexample: on a store holding, for (IncuCyte, Top Left), one
fully parsed overlapping booking and one record with parseable dates but an
unparseable start time, the availability grid reports the slot unavailable
while the admission check raises the uncaught TypeError and produces no
conflict set at all, so reported unavailability and a non empty conflict set
are not equivalent as stated. -/
theorem availability_admission_cex :
    incucyteAvailability (some 0) (some 60)
      [⟨"A", "e", "L", "IncuCyte", some 0, some 0, some 0, some 60, some "Top Left", 0⟩,
       ⟨"B", "e", "L", "IncuCyte", some 0, none, some 0, some 60, some "Top Left", 0⟩] =
      .ok (["Top Left"],
        ["Top Right", "Middle Left", "Middle Right", "Bottom Left", "Bottom Right"]) ∧
    conflictScan 0 60 (submitQuery "IncuCyte" (some "Top Left")
      [⟨"A", "e", "L", "IncuCyte", some 0, some 0, some 0, some 60, some "Top Left", 0⟩,
       ⟨"B", "e", "L", "IncuCyte", some 0, none, some 0, some 60, some "Top Left", 0⟩]) =
      .error () := by decide

/-- C3 amended: whenever the admission conflict loop for the (equipment, slot)
pair completes without raising, availability and admission agree exactly: for
a valid requested interval and a store of records on that pair, the
availability computation marks the slot booked if and only if the conflict
set of the admission check is non empty, for both the IncuCyte and the Fume
Hood paths; agreement can only break when a stored record with parseable
dates and an unparseable time makes the admission loop raise while
availability skips that record. -/
theorem availability_matches_admission :
    (∀ (sl : String) (recs : List Booking) (sdt edt : Nat) (cs : List Booking),
      sl ∈ INCUCYTE_SLOTS_FLAT →
      (∀ r ∈ recs, r.equipment = "IncuCyte" ∧ r.slot = some sl) →
      sdt < edt →
      conflictScan sdt edt (submitQuery "IncuCyte" (some sl) recs) = .ok cs →
      ∃ booked avail, incucyteAvailability (some sdt) (some edt) recs = .ok (booked, avail) ∧
        (sl ∈ booked ↔ cs ≠ [])) ∧
    (∀ (sl : String) (recs : List Booking) (sdt edt : Nat) (cs : List Booking),
      sl ∈ FUME_HOOD_SLOTS →
      (∀ r ∈ recs, r.equipment = "Fume Hood" ∧ r.slot = some sl) →
      sdt < edt →
      conflictScan sdt edt (submitQuery "Fume Hood" (some sl) recs) = .ok cs →
      (sl ∈ (fumeHoodAvailability (some sdt) (some edt) recs).1 ↔ cs ≠ [])) := by
  constructor
  · intro sl recs sdt edt cs hsl hall hlt hscan
    have hfe : recs.filter (fun r => decide (r.equipment = "IncuCyte")) = recs :=
      List.filter_eq_self.mpr (fun r hr => by simp [(hall r hr).1])
    have hq : submitQuery "IncuCyte" (some sl) recs = recs := by
      unfold submitQuery
      exact List.filter_eq_self.mpr
        (fun r hr => by simp [(hall r hr).1, (hall r hr).2])
    rw [hq] at hscan
    have hne : sl ≠ "" := by
      intro h0
      rw [h0] at hsl
      simp [INCUCYTE_SLOTS_FLAT, INCUCYTE_SLOTS] at hsl
    obtain ⟨m2, hm2⟩ := incuScan_ok_of_slots recs emptyGroups
      (fun r hr s hs => by
        rw [(hall r hr).2] at hs
        rw [← Option.some.inj hs]
        exact hsl)
    have hgroups := incuScan_groups recs emptyGroups m2 hm2 sl hne
    have hcs := conflictScan_ok recs hscan
    refine ⟨INCUCYTE_SLOTS_FLAT.filter
        (fun s2 => (m2 s2).any fun bnd => !(decide (edt ≤ bnd.1) || decide (sdt ≥ bnd.2))),
      INCUCYTE_SLOTS_FLAT.filter (fun s2 =>
        !(INCUCYTE_SLOTS_FLAT.filter
          (fun s3 => (m2 s3).any fun bnd =>
            !(decide (edt ≤ bnd.1) || decide (sdt ≥ bnd.2)))).contains s2),
      ?_, ?_⟩
    · unfold incucyteAvailability
      dsimp only
      rw [if_pos hlt, hfe, hm2]
    · rw [List.mem_filter, hgroups]
      have hany := groupOf_any sl sdt edt recs (fun r hr => (hall r hr).2)
      simp only [emptyGroups, List.nil_append]
      rw [hany, hcs, filter_ne_nil_iff_any]
      simp [hsl]
  · intro sl recs sdt edt cs hsl hall hlt hscan
    have hfe : recs.filter (fun r => decide (r.equipment = "Fume Hood")) = recs :=
      List.filter_eq_self.mpr (fun r hr => by simp [(hall r hr).1])
    have hq : submitQuery "Fume Hood" (some sl) recs = recs := by
      unfold submitQuery
      exact List.filter_eq_self.mpr
        (fun r hr => by simp [(hall r hr).1, (hall r hr).2])
    rw [hq] at hscan
    have hcs := conflictScan_ok recs hscan
    have hgroups := fhScan_groups recs emptyGroups sl hsl
    have hany := groupOf_any sl sdt edt recs (fun r hr => (hall r hr).2)
    unfold fumeHoodAvailability
    dsimp only
    rw [if_pos hlt, hfe]
    dsimp only
    rw [List.mem_filter, hgroups]
    simp only [emptyGroups, List.nil_append]
    rw [hany, hcs, filter_ne_nil_iff_any]
    simp [hsl]

/-- Witness: the amended agreement at a concrete store with one overlapping
parsed booking on (IncuCyte, Top Left). -/
theorem availability_matches_admission_w :
    ∃ booked avail,
      incucyteAvailability (some 540) (some 600)
        [⟨"A", "e", "L", "IncuCyte", some 0, some 550, some 0, some 610,
          some "Top Left", 0⟩] = .ok (booked, avail) ∧
      ("Top Left" ∈ booked ↔
        ([⟨"A", "e", "L", "IncuCyte", some 0, some 550, some 0, some 610,
          some "Top Left", 0⟩] : List Booking) ≠ []) :=
  availability_matches_admission.1 "Top Left"
    [⟨"A", "e", "L", "IncuCyte", some 0, some 550, some 0, some 610, some "Top Left", 0⟩]
    540 600
    [⟨"A", "e", "L", "IncuCyte", some 0, some 550, some 0, some 610, some "Top Left", 0⟩]
    (by decide) (by decide) (by decide) (by decide)
